import Mathlib

/-!
Verification of the SoloStack Tauri backend (`src-tauri/src/lib.rs`).

Shallow embedding conventions:
* Paths and Rust strings are modelled as `List Char`; `PathBuf::join` is
  modelled as inserting a single `/` separator, and the separator is fixed
  to `/` on every platform.
* The filesystem is an association list from paths to file contents;
  directories are not modelled (the code only ever creates directories,
  never files, through `create_dir_all`).
* Fallible OS calls (file copy, metadata reads, keychain and JNI calls)
  are driven by explicit fault oracles, so theorems can quantify over
  every possible pattern of I/O failure.
* Error strings keep the static prefix of the corresponding Rust
  `format!` template; the interpolated OS error text is elided.
-/

namespace SoloStack

abbrev Path := List Char

def str (s : String) : Path := s.data

/-- `com.solutionsstudio.solostack` from `lib.rs`. -/
def CURRENT_BUNDLE_IDENTIFIER : Path := str ("com.solutionsstudio.solostack")

/-- `com.antigravity.solostack` from `lib.rs`. -/
def LEGACY_BUNDLE_IDENTIFIER : Path := str ("com.antigravity.solostack")

def DATABASE_FILENAME : Path := str ("solostack.db")

def STARTUP_MIGRATION_MARKER_FILENAME : Path := str ("startup-migration-v1.json")

/-- Model of Rust `str::contains(pat)`: substring containment, checked by
scanning for a position where `pat` is a prefix of the remaining text. -/
def containsSub (hay pat : Path) : Bool :=
  match hay with
  | [] => pat.isEmpty
  | c :: rest => List.isPrefixOf pat (c :: rest) || containsSub rest pat

/-- Model of Rust `str::replacen(pat, rep, 1)` for a non-empty pattern:
replace the leftmost occurrence of `pat` by `rep`. -/
def replacen1 (hay pat rep : Path) : Path :=
  match hay with
  | [] => []
  | c :: rest =>
    if List.isPrefixOf pat (c :: rest) then
      rep ++ List.drop pat.length (c :: rest)
    else
      c :: replacen1 rest pat rep

/-- Split a path on the `/` separator, keeping empty segments
(the same shape as `String.splitOn`). -/
def splitOnSlash : Path → List Path
  | [] => [[]]
  | c :: rest =>
    if c = '/' then [] :: splitOnSlash rest
    else
      match splitOnSlash rest with
      | [] => [[c]]
      | s :: ss => (c :: s) :: ss

/-- The normal components of a path: empty segments (doubled or trailing
slashes) and `.` segments are dropped, as in Rust `Path::components`. -/
def rustSegments (p : Path) : List Path :=
  (splitOnSlash p).filter (fun s => !s.isEmpty && s ≠ ['.'])

/-- Model of Rust `Path::file_name`: the final normal component, or none
when the path has no components or ends in `..`. -/
def pathFileName (p : Path) : Option Path :=
  match (rustSegments p).getLast? with
  | some s => if s = ['.', '.'] then none else some s
  | none => none

def isAbsolutePath (p : Path) : Bool := p.head? = some '/'

/-- Rebuild a path from components (used only to model `Path::parent`). -/
def joinSegments (abs : Bool) (segs : List Path) : Path :=
  let body := (segs.intersperse (['/'])).flatten
  if abs then '/' :: body else body

/-- Model of Rust `Path::parent` on the paths the code evaluates it on:
the code only calls `parent()` after `file_name()` succeeded, and there
Rust returns the path made of all components but the last. -/
def pathParent (p : Path) : Option Path :=
  match pathFileName p with
  | none => none
  | some _ => some (joinSegments (isAbsolutePath p) (rustSegments p).dropLast)

/-- Model of `PathBuf::join` with a relative file name. -/
def pathJoin (dir name : Path) : Path := dir ++ '/' :: name

/-- `derive_legacy_app_data_dir` from `lib.rs`. -/
def derive_legacy_app_data_dir (new_app_data_dir : Path) : Option Path :=
  if containsSub new_app_data_dir CURRENT_BUNDLE_IDENTIFIER then
    some (replacen1 new_app_data_dir CURRENT_BUNDLE_IDENTIFIER LEGACY_BUNDLE_IDENTIFIER)
  else
    match pathFileName new_app_data_dir with
    | none => none
    | some file_name =>
      if file_name = CURRENT_BUNDLE_IDENTIFIER then
        match pathParent new_app_data_dir with
        | none => none
        | some parent => some (pathJoin parent LEGACY_BUNDLE_IDENTIFIER)
      else
        none

/-- `StartupMigrationMarkerPayload` from `lib.rs` (paths already rendered
to text by `to_string_lossy` in the source; kept as `Path` here). -/
structure StartupMigrationMarkerPayload where
  version : Nat
  source_db_path : Path
  destination_db_path : Path
deriving DecidableEq

/-- File contents: opaque database bytes of a given size, or the
serialized startup-migration marker.  The serialization of the marker is
kept structural (serde_json on this struct cannot fail); its on-disk
size is irrelevant to every claim and is modelled as `0`. -/
inductive FileContent where
  | bytes (size : Nat)
  | markerText (payload : StartupMigrationMarkerPayload)
deriving DecidableEq

def FileContent.size : FileContent → Nat
  | .bytes n => n
  | .markerText _ => 0

/-- The filesystem: an association list from paths to contents, newest
binding first. -/
structure FS where
  files : List (Path × FileContent)
deriving DecidableEq

def FS.get (fs : FS) (p : Path) : Option FileContent :=
  (fs.files.find? (fun e => e.1 = p)).map (fun e => e.2)

def FS.pathExists (fs : FS) (p : Path) : Bool := (fs.get p).isSome

def FS.set (fs : FS) (p : Path) (c : FileContent) : FS :=
  ⟨(p, c) :: fs.files⟩

theorem FS.get_set_self (fs : FS) (p : Path) (c : FileContent) :
    (fs.set p c).get p = some c := by
  simp [FS.set, FS.get, List.find?]

theorem FS.get_set_ne (fs : FS) {p q : Path} (c : FileContent) (h : p ≠ q) :
    (fs.set q c).get p = fs.get p := by
  have hd : (decide (q = p)) = false := decide_eq_false (fun he => h he.symm)
  simp [FS.set, FS.get, List.find?, hd]

/-- `StartupMigrationReport` from `lib.rs`; `Default::default` is the
all-false / all-absent record. -/
structure StartupMigrationReport where
  legacy_path_detected : Bool := false
  marker_present : Bool := false
  migration_attempted : Bool := false
  migration_completed : Bool := false
  migration_error : Option String := none
  legacy_db_path : Option Path := none
  new_db_path : Option Path := none
deriving DecidableEq

/-- Fault oracle for the fallible OS calls made by one migration run. -/
structure MigrationFaults where
  copyDbFails : Bool := false
  copyWalFails : Bool := false
  copyShmFails : Bool := false
  metaSourceFails : Bool := false
  metaDestinationFails : Bool := false
  writeMarkerFails : Bool := false
deriving DecidableEq

/-- Environment of one migration run: the result of
`app.path().app_data_dir()` (`none` models its failure), whether
`fs::create_dir_all` fails, and the I/O fault oracle. -/
structure MigrationEnv where
  appDataDir : Option Path
  createDirFails : Bool := false
  faults : MigrationFaults := {}
deriving DecidableEq

/-- Model of `fs::copy`: on success the destination holds the source's
content; a failure (injected fault, or missing source) leaves the
filesystem unchanged. -/
def fsCopy (fs : FS) (fail : Bool) (src dst : Path) : Option FS :=
  if fail then none
  else
    match fs.get src with
    | none => none
    | some c => some (fs.set dst c)

/-- `copy_optional_db_sidecar` from `lib.rs`: sidecar paths are the
database path with the suffix appended directly (`format!` in the
source), and a missing sidecar source is skipped with success. -/
def copy_optional_db_sidecar (fs : FS) (fail : Bool)
    (source_db_path destination_db_path suffix : Path) : Except String FS :=
  let source_path := source_db_path ++ suffix
  if !fs.pathExists source_path then .ok fs
  else
    let destination_path := destination_db_path ++ suffix
    match fsCopy fs fail source_path destination_path with
    | none => .error ("copy sidecar failed")
    | some fs1 => .ok fs1

/-- `verify_database_copy` from `lib.rs`: read both metadata records and
compare file sizes. -/
def verify_database_copy (fs : FS) (metaSourceFails metaDestinationFails : Bool)
    (source_path destination_path : Path) : Except String Unit :=
  match (if metaSourceFails then none else fs.get source_path) with
  | none => .error ("read source metadata failed")
  | some source_c =>
    match (if metaDestinationFails then none else fs.get destination_path) with
    | none => .error ("read destination metadata failed")
    | some destination_c =>
      if source_c.size ≠ destination_c.size then .error ("copied database size mismatch")
      else .ok ()

/-- `run_startup_legacy_db_migration` from `lib.rs`, returning the report
together with the filesystem after the run. -/
def run_startup_legacy_db_migration (env : MigrationEnv) (fs0 : FS) :
    StartupMigrationReport × FS :=
  match env.appDataDir with
  | none => ({ migration_error := some ("resolve app data dir failed") }, fs0)
  | some new_app_data_dir =>
    if env.createDirFails then
      ({ migration_error := some ("create app data dir failed") }, fs0)
    else
      let new_db_path := pathJoin new_app_data_dir DATABASE_FILENAME
      let marker_path := pathJoin new_app_data_dir STARTUP_MIGRATION_MARKER_FILENAME
      let report0 : StartupMigrationReport :=
        { new_db_path := some new_db_path, marker_present := fs0.pathExists marker_path }
      match derive_legacy_app_data_dir new_app_data_dir with
      | none => (report0, fs0)
      | some legacy_app_data_dir =>
        let legacy_db_path := pathJoin legacy_app_data_dir DATABASE_FILENAME
        let report1 := { report0 with
          legacy_db_path := some legacy_db_path,
          legacy_path_detected := fs0.pathExists legacy_db_path }
        if !fs0.pathExists legacy_db_path then (report1, fs0)
        else if report1.marker_present || fs0.pathExists new_db_path then
          ({ report1 with migration_completed := true }, fs0)
        else
          let report2 := { report1 with migration_attempted := true }
          match fsCopy fs0 env.faults.copyDbFails legacy_db_path new_db_path with
          | none =>
            ({ report2 with migration_error := some ("copy legacy database failed") }, fs0)
          | some fs1 =>
            match copy_optional_db_sidecar fs1 env.faults.copyWalFails
                legacy_db_path new_db_path (str ("-wal")) with
            | .error e => ({ report2 with migration_error := some e }, fs1)
            | .ok fs2 =>
              match copy_optional_db_sidecar fs2 env.faults.copyShmFails
                  legacy_db_path new_db_path (str ("-shm")) with
              | .error e => ({ report2 with migration_error := some e }, fs2)
              | .ok fs3 =>
                match verify_database_copy fs3 env.faults.metaSourceFails
                    env.faults.metaDestinationFails legacy_db_path new_db_path with
                | .error e => ({ report2 with migration_error := some e }, fs3)
                | .ok _ =>
                  if env.faults.writeMarkerFails then
                    ({ report2 with
                        migration_error := some ("write migration marker failed") }, fs3)
                  else
                    ({ report2 with marker_present := true, migration_completed := true },
                      fs3.set marker_path
                        (.markerText ⟨1, legacy_db_path, new_db_path⟩))

/-! Path toolkit: facts about `containsSub`, `replacen1`, `splitOnSlash`
and the derived-directory function that the migration theorems need. -/

theorem containsSub_iff (hay pat : Path) :
    containsSub hay pat = true ↔ pat <:+: hay := by
  induction hay with
  | nil => simp [containsSub, List.isEmpty_iff]
  | cons c rest ih =>
    rw [containsSub, Bool.or_eq_true, List.isPrefixOf_iff_prefix, ih,
      List.infix_cons_iff]

theorem splitOnSlash_head_prefix (p : Path) :
    ∃ s0 ss, splitOnSlash p = s0 :: ss ∧ s0 <+: p := by
  induction p with
  | nil => exact ⟨[], [], rfl, List.nil_prefix⟩
  | cons c rest ih =>
    by_cases hc : c = '/'
    · exact ⟨[], splitOnSlash rest, by simp [splitOnSlash, hc], List.nil_prefix⟩
    · obtain ⟨s0, ss, hsplit, hpre⟩ := ih
      refine ⟨c :: s0, ss, ?_, ?_⟩
      · simp [splitOnSlash, hc, hsplit]
      · exact List.cons_prefix_cons.mpr ⟨rfl, hpre⟩

theorem mem_splitOnSlash_part {p s : Path} (h : s ∈ splitOnSlash p) : s <:+: p := by
  induction p with
  | nil =>
    simp [splitOnSlash] at h
    simp [h]
  | cons c rest ih =>
    by_cases hc : c = '/'
    · rw [splitOnSlash, if_pos hc] at h
      rcases List.mem_cons.mp h with h1 | h2
      · simp [h1]
      · exact List.infix_cons (ih h2)
    · obtain ⟨s0, ss, hsplit, hpre⟩ := splitOnSlash_head_prefix rest
      rw [splitOnSlash, if_neg hc, hsplit] at h
      rcases List.mem_cons.mp h with h1 | h2
      · subst h1
        exact (List.cons_prefix_cons.mpr ⟨rfl, hpre⟩).isInfix
      · exact List.infix_cons (ih (hsplit ▸ List.mem_cons_of_mem s0 h2))

theorem pathFileName_contains {p s : Path} (h : pathFileName p = some s) :
    containsSub p s = true := by
  unfold pathFileName at h
  cases hg : (rustSegments p).getLast? with
  | none => rw [hg] at h; exact absurd h (by simp)
  | some t =>
    rw [hg] at h
    by_cases ht : t = ['.', '.']
    · simp [ht] at h
    · have h' : (if t = ['.', '.'] then none else some t) = some s := h
      rw [if_neg ht] at h'
      have hts : t = s := Option.some.inj h'
      subst hts
      obtain ⟨hne', heq⟩ := List.mem_getLast?_eq_getLast hg
      have hmem : t ∈ rustSegments p := by
        rw [heq]
        exact List.getLast_mem hne'
      have hmem2 : t ∈ splitOnSlash p := List.mem_of_mem_filter hmem
      exact (containsSub_iff p t).mpr (mem_splitOnSlash_part hmem2)

theorem replacen1_length (rep : Path) {hay pat : Path} (hne : pat ≠ [])
    (h : containsSub hay pat = true) :
    (replacen1 hay pat rep).length + pat.length = hay.length + rep.length := by
  induction hay with
  | nil =>
    rw [containsSub, List.isEmpty_iff] at h
    exact absurd h hne
  | cons c rest ih =>
    rw [containsSub, Bool.or_eq_true] at h
    by_cases hp : List.isPrefixOf pat (c :: rest) = true
    · rw [replacen1, if_pos hp]
      have hle : pat.length ≤ (c :: rest).length :=
        (List.isPrefixOf_iff_prefix.mp hp).length_le
      simp only [List.length_append, List.length_drop, List.length_cons] at *
      omega
    · rw [replacen1, if_neg hp]
      rcases h with h | h
      · exact absurd h hp
      · have := ih h
        simp only [List.length_cons]
        omega

/-- The derived legacy directory is never the input directory itself:
the textual substitution shortens the path by four characters, and the
final-segment branch only fires when the full path contains the current
identifier anyway (a segment is a substring of its path). -/
theorem derive_legacy_app_data_dir_ne {d L : Path}
    (h : derive_legacy_app_data_dir d = some L) : L ≠ d := by
  unfold derive_legacy_app_data_dir at h
  by_cases hc : containsSub d CURRENT_BUNDLE_IDENTIFIER = true
  · rw [if_pos hc] at h
    have hL : replacen1 d CURRENT_BUNDLE_IDENTIFIER LEGACY_BUNDLE_IDENTIFIER = L :=
      Option.some.inj h
    have hlen := replacen1_length LEGACY_BUNDLE_IDENTIFIER
      (by decide : CURRENT_BUNDLE_IDENTIFIER ≠ []) hc
    have h29 : CURRENT_BUNDLE_IDENTIFIER.length = 29 := by decide
    have h25 : LEGACY_BUNDLE_IDENTIFIER.length = 25 := by decide
    intro he
    rw [hL, he, h29, h25] at hlen
    omega
  · rw [if_neg hc] at h
    cases hf : pathFileName d with
    | none => rw [hf] at h; simp at h
    | some fn =>
      rw [hf] at h
      by_cases hfn : fn = CURRENT_BUNDLE_IDENTIFIER
      · exact absurd (pathFileName_contains (hfn ▸ hf)) hc
      · simp [hfn] at h

theorem ne_of_getLast?_ne {a b : Path} (h : a.getLast? ≠ b.getLast?) : a ≠ b :=
  fun he => h (he ▸ rfl)

theorem append_ne_append_left {a b : Path} (s : Path) (h : a ≠ b) :
    a ++ s ≠ b ++ s :=
  fun he => h (List.append_cancel_right he)

theorem pathJoin_ne_of_ne {a b : Path} (n : Path) (h : a ≠ b) :
    pathJoin a n ≠ pathJoin b n :=
  append_ne_append_left _ h

theorem append_ne_of_last_ne (c c' : Char) {a b s t : Path}
    (hs : s.getLast? = some c) (ht : t.getLast? = some c') (hcc : c ≠ c') :
    a ++ s ≠ b ++ t := by
  apply ne_of_getLast?_ne
  have hsn : s ≠ [] := fun he => by simp [he] at hs
  have htn : t ≠ [] := fun he => by simp [he] at ht
  rw [List.getLast?_append_of_ne_nil _ hsn, List.getLast?_append_of_ne_nil _ htn,
    hs, ht]
  simp [hcc]

/-! Filesystem-effect lemmas for the migration run. -/

theorem fsCopy_get_ne {fs fs' : FS} {fail : Bool} {src dst : Path}
    (h : fsCopy fs fail src dst = some fs') {p : Path} (hp : p ≠ dst) :
    fs'.get p = fs.get p := by
  unfold fsCopy at h
  by_cases hf : fail = true
  · simp [hf] at h
  · rw [if_neg hf] at h
    cases hg : fs.get src with
    | none => rw [hg] at h; simp at h
    | some c =>
      rw [hg] at h
      have : fs.set dst c = fs' := Option.some.inj h
      rw [← this]
      exact FS.get_set_ne fs c hp

theorem copy_optional_db_sidecar_get_ne {fs fs' : FS} {fail : Bool}
    {src dst suffix p : Path}
    (h : copy_optional_db_sidecar fs fail src dst suffix = .ok fs')
    (hp : p ≠ dst ++ suffix) :
    fs'.get p = fs.get p := by
  unfold copy_optional_db_sidecar at h
  by_cases he : fs.pathExists (src ++ suffix) = true
  · simp only [he, Bool.not_true, Bool.false_eq_true, if_false] at h
    cases hc : fsCopy fs fail (src ++ suffix) (dst ++ suffix) with
    | none => rw [hc] at h; simp at h
    | some fs1 =>
      rw [hc] at h
      have : fs1 = fs' := by
        cases h
        rfl
      rw [← this]
      exact fsCopy_get_ne hc hp
  · simp only [Bool.not_eq_true] at he
    simp only [he, Bool.not_false, if_true] at h
    cases h
    rfl

/-- A no-fault sidecar copy always succeeds and only (at most) writes the
destination sidecar path. -/
theorem copy_optional_db_sidecar_noFault (fs : FS) (src dst suffix : Path) :
    ∃ fs', copy_optional_db_sidecar fs false src dst suffix = .ok fs' ∧
      ∀ p, p ≠ dst ++ suffix → fs'.get p = fs.get p := by
  by_cases he : fs.pathExists (src ++ suffix) = true
  · obtain ⟨e, hge⟩ := Option.isSome_iff_exists.mp he
    refine ⟨fs.set (dst ++ suffix) e, ?_, ?_⟩
    · unfold copy_optional_db_sidecar fsCopy
      simp only [he, Bool.not_true, Bool.false_eq_true, if_false,
        Bool.false_eq_true, hge]
    · intro p hp
      exact FS.get_set_ne fs e hp
  · refine ⟨fs, ?_, fun p _ => rfl⟩
    unfold copy_optional_db_sidecar
    simp only [Bool.not_eq_true] at he
    simp only [he, Bool.not_false, if_true]

/-- Whatever happens during a migration run, the only paths ever written
are the destination database, its two destination sidecars, and the
marker file; every other path keeps its prior content. -/
theorem run_startup_migration_preserves_other_paths
    (env : MigrationEnv) (fs0 : FS) {d : Path} (hd : env.appDataDir = some d)
    (p : Path)
    (h1 : p ≠ pathJoin d DATABASE_FILENAME)
    (h2 : p ≠ pathJoin d DATABASE_FILENAME ++ str ("-wal"))
    (h3 : p ≠ pathJoin d DATABASE_FILENAME ++ str ("-shm"))
    (h4 : p ≠ pathJoin d STARTUP_MIGRATION_MARKER_FILENAME) :
    (run_startup_legacy_db_migration env fs0).2.get p = fs0.get p := by
  unfold run_startup_legacy_db_migration
  rw [hd]
  by_cases hcd : env.createDirFails = true
  · simp [hcd]
  · simp only [Bool.not_eq_true] at hcd
    simp only [hcd, Bool.false_eq_true, if_false]
    cases hder : derive_legacy_app_data_dir d with
    | none => rfl
    | some L =>
      by_cases hleg : fs0.pathExists (pathJoin L DATABASE_FILENAME) = true
      · simp only [hleg, Bool.not_true, Bool.false_eq_true, if_false]
        by_cases hgate : (fs0.pathExists (pathJoin d STARTUP_MIGRATION_MARKER_FILENAME)
            || fs0.pathExists (pathJoin d DATABASE_FILENAME)) = true
        · simp only [hgate, if_true]
        · simp only [Bool.not_eq_true] at hgate
          simp only [hgate, Bool.false_eq_true, if_false]
          cases hcopy : fsCopy fs0 env.faults.copyDbFails
              (pathJoin L DATABASE_FILENAME) (pathJoin d DATABASE_FILENAME) with
          | none => rfl
          | some fs1 =>
            dsimp only
            have hp1 : fs1.get p = fs0.get p := fsCopy_get_ne hcopy h1
            cases hwal : copy_optional_db_sidecar fs1 env.faults.copyWalFails
                (pathJoin L DATABASE_FILENAME) (pathJoin d DATABASE_FILENAME)
                (str ("-wal")) with
            | error e => dsimp only; exact hp1
            | ok fs2 =>
              dsimp only
              have hp2 : fs2.get p = fs0.get p :=
                (copy_optional_db_sidecar_get_ne hwal h2).trans hp1
              cases hshm : copy_optional_db_sidecar fs2 env.faults.copyShmFails
                  (pathJoin L DATABASE_FILENAME) (pathJoin d DATABASE_FILENAME)
                  (str ("-shm")) with
              | error e => dsimp only; exact hp2
              | ok fs3 =>
                dsimp only
                have hp3 : fs3.get p = fs0.get p :=
                  (copy_optional_db_sidecar_get_ne hshm h3).trans hp2
                cases hver : verify_database_copy fs3 env.faults.metaSourceFails
                    env.faults.metaDestinationFails (pathJoin L DATABASE_FILENAME)
                    (pathJoin d DATABASE_FILENAME) with
                | error e => dsimp only; exact hp3
                | ok u =>
                  dsimp only
                  by_cases hmk : env.faults.writeMarkerFails = true
                  · simp only [hmk, if_true]
                    exact hp3
                  · simp only [Bool.not_eq_true] at hmk
                    simp only [hmk, Bool.false_eq_true, if_false]
                    exact (FS.get_set_ne fs3 _ h4).trans hp3
      · simp only [Bool.not_eq_true] at hleg
        simp only [hleg, Bool.not_false, if_true]

/-- C10: for every run of the startup migration, whether it succeeds or
fails at any step, no file in the legacy data directory (the legacy
database or its `-wal` / `-shm` sidecars) is created, modified, or
deleted: after the run each of the three legacy paths holds exactly its
prior content. -/
theorem claim_C10_migration_preserves_legacy_files
    (env : MigrationEnv) (fs0 : FS) {d L : Path}
    (hd : env.appDataDir = some d)
    (hder : derive_legacy_app_data_dir d = some L) :
    ((run_startup_legacy_db_migration env fs0).2.get (pathJoin L DATABASE_FILENAME) =
        fs0.get (pathJoin L DATABASE_FILENAME)) ∧
    ((run_startup_legacy_db_migration env fs0).2.get
          (pathJoin L DATABASE_FILENAME ++ str ("-wal")) =
        fs0.get (pathJoin L DATABASE_FILENAME ++ str ("-wal"))) ∧
    ((run_startup_legacy_db_migration env fs0).2.get
          (pathJoin L DATABASE_FILENAME ++ str ("-shm")) =
        fs0.get (pathJoin L DATABASE_FILENAME ++ str ("-shm"))) := by
  have hLd : L ≠ d := derive_legacy_app_data_dir_ne hder
  refine ⟨?_, ?_, ?_⟩
  · refine run_startup_migration_preserves_other_paths env fs0 hd _ ?_ ?_ ?_ ?_
    · exact pathJoin_ne_of_ne _ hLd
    · unfold pathJoin
      exact append_ne_of_last_ne 'b' 'l' (by decide) (by decide) (by decide)
    · unfold pathJoin
      exact append_ne_of_last_ne 'b' 'm' (by decide) (by decide) (by decide)
    · unfold pathJoin
      exact append_ne_of_last_ne 'b' 'n' (by decide) (by decide) (by decide)
  · refine run_startup_migration_preserves_other_paths env fs0 hd _ ?_ ?_ ?_ ?_
    · unfold pathJoin
      exact append_ne_of_last_ne 'l' 'b' (by decide) (by decide) (by decide)
    · exact append_ne_append_left _ (pathJoin_ne_of_ne _ hLd)
    · unfold pathJoin
      exact append_ne_of_last_ne 'l' 'm' (by decide) (by decide) (by decide)
    · unfold pathJoin
      exact append_ne_of_last_ne 'l' 'n' (by decide) (by decide) (by decide)
  · refine run_startup_migration_preserves_other_paths env fs0 hd _ ?_ ?_ ?_ ?_
    · unfold pathJoin
      exact append_ne_of_last_ne 'm' 'b' (by decide) (by decide) (by decide)
    · unfold pathJoin
      exact append_ne_of_last_ne 'm' 'l' (by decide) (by decide) (by decide)
    · exact append_ne_append_left _ (pathJoin_ne_of_ne _ hLd)
    · unfold pathJoin
      exact append_ne_of_last_ne 'm' 'n' (by decide) (by decide) (by decide)

/-- C2: when the legacy database exists and either the marker or the
destination database already exists, the run reports
`migration_completed = true`, `migration_attempted = false`, and leaves
the filesystem untouched. -/
theorem claim_C2_idempotency_gate
    (env : MigrationEnv) (fs0 : FS) {d L : Path}
    (hd : env.appDataDir = some d)
    (hcd : env.createDirFails = false)
    (hder : derive_legacy_app_data_dir d = some L)
    (hleg : fs0.pathExists (pathJoin L DATABASE_FILENAME) = true)
    (hgate : fs0.pathExists (pathJoin d STARTUP_MIGRATION_MARKER_FILENAME) = true ∨
      fs0.pathExists (pathJoin d DATABASE_FILENAME) = true) :
    (run_startup_legacy_db_migration env fs0).1.migration_completed = true ∧
    (run_startup_legacy_db_migration env fs0).1.migration_attempted = false ∧
    (run_startup_legacy_db_migration env fs0).2 = fs0 := by
  have hg : (fs0.pathExists (pathJoin d STARTUP_MIGRATION_MARKER_FILENAME) ||
      fs0.pathExists (pathJoin d DATABASE_FILENAME)) = true := by
    rcases hgate with h | h <;> simp [h]
  unfold run_startup_legacy_db_migration
  rw [hd]
  simp only [hcd, Bool.false_eq_true, if_false]
  rw [hder]
  dsimp only
  simp only [hleg, Bool.not_true, Bool.false_eq_true, if_false, hg, if_true]
  exact ⟨trivial, trivial, trivial⟩

/-- C3: in every run, `migration_completed = true` implies the report
carries `marker_present = true` or the destination database existed
before the run; and `migration_attempted = true` implies
`legacy_path_detected = true` and that neither the marker nor the
destination database existed before the attempt. -/
theorem claim_C3_report_invariant (env : MigrationEnv) (fs0 : FS) :
    ((run_startup_legacy_db_migration env fs0).1.migration_completed = true →
      (run_startup_legacy_db_migration env fs0).1.marker_present = true ∨
        ∃ d, env.appDataDir = some d ∧
          fs0.pathExists (pathJoin d DATABASE_FILENAME) = true) ∧
    ((run_startup_legacy_db_migration env fs0).1.migration_attempted = true →
      (run_startup_legacy_db_migration env fs0).1.legacy_path_detected = true ∧
        ∃ d, env.appDataDir = some d ∧
          fs0.pathExists (pathJoin d STARTUP_MIGRATION_MARKER_FILENAME) = false ∧
          fs0.pathExists (pathJoin d DATABASE_FILENAME) = false) := by
  unfold run_startup_legacy_db_migration
  cases hD : env.appDataDir with
  | none => simp
  | some d =>
    dsimp only
    by_cases hcd : env.createDirFails = true
    · simp [hcd]
    · simp only [Bool.not_eq_true] at hcd
      simp only [hcd, Bool.false_eq_true, if_false]
      cases hder : derive_legacy_app_data_dir d with
      | none => simp
      | some L =>
        dsimp only
        by_cases hleg : fs0.pathExists (pathJoin L DATABASE_FILENAME) = true
        · simp only [hleg, Bool.not_true, Bool.false_eq_true, if_false]
          by_cases hgate : (fs0.pathExists (pathJoin d STARTUP_MIGRATION_MARKER_FILENAME)
              || fs0.pathExists (pathJoin d DATABASE_FILENAME)) = true
          · simp only [hgate, if_true]
            refine ⟨fun _ => ?_, fun hfalse => (by cases hfalse)⟩
            rcases (by simpa using hgate :
                fs0.pathExists (pathJoin d STARTUP_MIGRATION_MARKER_FILENAME) = true ∨
                  fs0.pathExists (pathJoin d DATABASE_FILENAME) = true) with h | h
            · exact Or.inl (by simpa using h)
            · exact Or.inr ⟨d, rfl, h⟩
          · simp only [hgate, Bool.false_eq_true, if_false]
            rw [Bool.or_eq_true, not_or, Bool.not_eq_true, Bool.not_eq_true] at hgate
            obtain ⟨hm, hn⟩ := hgate
            cases hcopy : fsCopy fs0 env.faults.copyDbFails
                (pathJoin L DATABASE_FILENAME) (pathJoin d DATABASE_FILENAME) with
            | none =>
              exact ⟨fun hfalse => (by cases hfalse),
                fun _ => ⟨by trivial, d, rfl, hm, hn⟩⟩
            | some fs1 =>
              dsimp only
              cases hwal : copy_optional_db_sidecar fs1 env.faults.copyWalFails
                  (pathJoin L DATABASE_FILENAME) (pathJoin d DATABASE_FILENAME)
                  (str ("-wal")) with
              | error e =>
                exact ⟨fun hfalse => (by cases hfalse),
                  fun _ => ⟨by trivial, d, rfl, hm, hn⟩⟩
              | ok fs2 =>
                dsimp only
                cases hshm : copy_optional_db_sidecar fs2 env.faults.copyShmFails
                    (pathJoin L DATABASE_FILENAME) (pathJoin d DATABASE_FILENAME)
                    (str ("-shm")) with
                | error e =>
                  exact ⟨fun hfalse => (by cases hfalse),
                    fun _ => ⟨by trivial, d, rfl, hm, hn⟩⟩
                | ok fs3 =>
                  dsimp only
                  cases hver : verify_database_copy fs3 env.faults.metaSourceFails
                      env.faults.metaDestinationFails (pathJoin L DATABASE_FILENAME)
                      (pathJoin d DATABASE_FILENAME) with
                  | error e =>
                    exact ⟨fun hfalse => (by cases hfalse),
                      fun _ => ⟨by trivial, d, rfl, hm, hn⟩⟩
                  | ok u =>
                    dsimp only
                    by_cases hmk : env.faults.writeMarkerFails = true
                    · simp only [hmk, if_true]
                      exact ⟨fun hfalse => (by cases hfalse),
                        fun _ => ⟨by trivial, d, rfl, hm, hn⟩⟩
                    · simp only [Bool.not_eq_true] at hmk
                      simp only [hmk, Bool.false_eq_true, if_false]
                      exact ⟨fun _ => Or.inl (by trivial),
                        fun _ => ⟨by trivial, d, rfl, hm, hn⟩⟩
        · simp only [Bool.not_eq_true] at hleg
          simp [hleg]

/-- C1: a first migration run (legacy database present, no marker, no
destination database, every I/O operation succeeding) reports
`migration_attempted = true`, `migration_completed = true`,
`marker_present = true`, no `migration_error`, and writes a marker file
holding version `1` and the resolved legacy / new database paths. -/
theorem claim_C1_first_run_success
    (env : MigrationEnv) (fs0 : FS) {d L : Path}
    (hd : env.appDataDir = some d)
    (hcd : env.createDirFails = false)
    (hder : derive_legacy_app_data_dir d = some L)
    (hfaults : env.faults = {})
    (hleg : fs0.pathExists (pathJoin L DATABASE_FILENAME) = true)
    (hm : fs0.pathExists (pathJoin d STARTUP_MIGRATION_MARKER_FILENAME) = false)
    (hn : fs0.pathExists (pathJoin d DATABASE_FILENAME) = false) :
    (run_startup_legacy_db_migration env fs0).1.migration_attempted = true ∧
    (run_startup_legacy_db_migration env fs0).1.migration_completed = true ∧
    (run_startup_legacy_db_migration env fs0).1.marker_present = true ∧
    (run_startup_legacy_db_migration env fs0).1.migration_error = none ∧
    (run_startup_legacy_db_migration env fs0).2.get
        (pathJoin d STARTUP_MIGRATION_MARKER_FILENAME) =
      some (.markerText
        ⟨1, pathJoin L DATABASE_FILENAME, pathJoin d DATABASE_FILENAME⟩) := by
  have hLd : L ≠ d := derive_legacy_app_data_dir_ne hder
  have hne1 : pathJoin L DATABASE_FILENAME ≠ pathJoin d DATABASE_FILENAME :=
    pathJoin_ne_of_ne _ hLd
  have hne2 : pathJoin L DATABASE_FILENAME ≠
      pathJoin d DATABASE_FILENAME ++ str ("-wal") := by
    unfold pathJoin
    exact append_ne_of_last_ne 'b' 'l' (by decide) (by decide) (by decide)
  have hne3 : pathJoin L DATABASE_FILENAME ≠
      pathJoin d DATABASE_FILENAME ++ str ("-shm") := by
    unfold pathJoin
    exact append_ne_of_last_ne 'b' 'm' (by decide) (by decide) (by decide)
  have hne4 : pathJoin d DATABASE_FILENAME ≠
      pathJoin d DATABASE_FILENAME ++ str ("-wal") := by
    unfold pathJoin
    exact append_ne_of_last_ne 'b' 'l' (by decide) (by decide) (by decide)
  have hne5 : pathJoin d DATABASE_FILENAME ≠
      pathJoin d DATABASE_FILENAME ++ str ("-shm") := by
    unfold pathJoin
    exact append_ne_of_last_ne 'b' 'm' (by decide) (by decide) (by decide)
  obtain ⟨c, hc⟩ := Option.isSome_iff_exists.mp hleg
  unfold run_startup_legacy_db_migration
  rw [hd]
  simp only [hcd, Bool.false_eq_true, if_false]
  rw [hder]
  dsimp only
  simp only [hleg, hm, hn, Bool.not_true, Bool.false_eq_true, if_false,
    Bool.false_or, hfaults]
  have hcopy : fsCopy fs0 false (pathJoin L DATABASE_FILENAME)
      (pathJoin d DATABASE_FILENAME) =
      some (fs0.set (pathJoin d DATABASE_FILENAME) c) := by
    unfold fsCopy
    simp [hc]
  rw [hcopy]
  dsimp only
  obtain ⟨fs2, hwal, hwalpres⟩ :=
    copy_optional_db_sidecar_noFault (fs0.set (pathJoin d DATABASE_FILENAME) c)
      (pathJoin L DATABASE_FILENAME) (pathJoin d DATABASE_FILENAME) (str ("-wal"))
  rw [hwal]
  dsimp only
  obtain ⟨fs3, hshm, hshmpres⟩ :=
    copy_optional_db_sidecar_noFault fs2
      (pathJoin L DATABASE_FILENAME) (pathJoin d DATABASE_FILENAME) (str ("-shm"))
  rw [hshm]
  dsimp only
  have hsrc3 : fs3.get (pathJoin L DATABASE_FILENAME) = some c := by
    rw [hshmpres _ hne3, hwalpres _ hne2,
      FS.get_set_ne fs0 c hne1, hc]
  have hdst3 : fs3.get (pathJoin d DATABASE_FILENAME) = some c := by
    rw [hshmpres _ hne5, hwalpres _ hne4, FS.get_set_self]
  have hver : verify_database_copy fs3 false false (pathJoin L DATABASE_FILENAME)
      (pathJoin d DATABASE_FILENAME) = .ok () := by
    unfold verify_database_copy
    rw [if_neg (by simp), if_neg (by simp), hsrc3, hdst3]
    simp
  rw [hver]
  dsimp only
  exact ⟨rfl, rfl, rfl, rfl, FS.get_set_self fs3 _ _⟩

/-! Credential store.  Rust strings are `List Char` like paths; Rust
`str::trim` (Unicode whitespace at both ends) is modelled with
`Char.isWhitespace`. -/

def isUniWs (c : Char) : Bool := c.isWhitespace

/-- Model of Rust `str::trim`: drop whitespace from the left, then from
the right. -/
def rustTrim (s : List Char) : List Char :=
  List.rdropWhile isUniWs (List.dropWhile isUniWs s)

theorem rustTrim_idempotent (s : List Char) : rustTrim (rustTrim s) = rustTrim s := by
  unfold rustTrim
  have h1 : List.dropWhile isUniWs
      (List.rdropWhile isUniWs (List.dropWhile isUniWs s)) =
      List.rdropWhile isUniWs (List.dropWhile isUniWs s) := by
    rw [List.dropWhile_eq_self_iff]
    intro hl
    have hpre := List.rdropWhile_prefix isUniWs (List.dropWhile isUniWs s)
    have hlen : 0 < (List.dropWhile isUniWs s).length :=
      lt_of_lt_of_le hl hpre.length_le
    have hget : (List.rdropWhile isUniWs (List.dropWhile isUniWs s)).get ⟨0, hl⟩ =
        (List.dropWhile isUniWs s).get ⟨0, hlen⟩ := by
      simp only [List.get_eq_getElem]
      exact List.IsPrefix.getElem hpre hl
    rw [hget]
    exact List.dropWhile_get_zero_not isUniWs s hlen
  rw [h1, List.rdropWhile_idempotent]

/-- `normalize_sync_provider_identifier` from `lib.rs`. -/
def normalize_sync_provider_identifier (provider : List Char) :
    Except String (List Char) :=
  let normalized_provider := rustTrim provider
  if normalized_provider.isEmpty then .error ("provider is required")
  else .ok normalized_provider

/-- Desktop keychain state: account name mapped to the stored secret (the
service identifier is a fixed constant and is left implicit). -/
structure Keyring where
  entries : List (List Char × List Char)
deriving DecidableEq

def Keyring.get (kr : Keyring) (account : List Char) : Option (List Char) :=
  (kr.entries.find? (fun e => e.1 = account)).map (fun e => e.2)

def Keyring.set (kr : Keyring) (account secret : List Char) : Keyring :=
  ⟨(account, secret) :: kr.entries⟩

def Keyring.del (kr : Keyring) (account : List Char) : Keyring :=
  ⟨kr.entries.filter (fun e => !decide (e.1 = account))⟩

theorem Keyring.get_set_found (kr : Keyring) (account secret : List Char) :
    (kr.set account secret).get account = some secret := by
  simp [Keyring.set, Keyring.get, List.find?]

/-- Per-account fault oracle for the `keyring` crate calls made by the
desktop backend. -/
structure KeyringFaults where
  createEntryFails : List Char → Bool
  getFails : List Char → Bool
  setFails : List Char → Bool
  deleteFails : List Char → Bool

def noKeyringFaults : KeyringFaults :=
  ⟨fun _ => false, fun _ => false, fun _ => false, fun _ => false⟩

/-- The per-provider account name `sync-provider::<normalized provider>`
from `create_sync_provider_auth_entry`. -/
def syncProviderAccount (normalized_provider : List Char) : List Char :=
  str ("sync-provider::") ++ normalized_provider

/-- `create_sync_provider_auth_entry` from `lib.rs`: normalize the
provider, then construct the keyring entry handle (modelled by its
account name). -/
def create_sync_provider_auth_entry (f : KeyringFaults) (provider : List Char) :
    Except String (List Char) :=
  match normalize_sync_provider_identifier provider with
  | .error e => .error e
  | .ok normalized_provider =>
    let account := syncProviderAccount normalized_provider
    if f.createEntryFails account then .error ("create keyring entry failed")
    else .ok account

/-- `get_sync_provider_secure_auth`, desktop branch: `get_password`'s
`Err` covers both a missing entry and a genuine read failure, and the
source maps every `Err` to `Ok(None)`. -/
def get_sync_provider_secure_auth_native (kr : Keyring) (f : KeyringFaults)
    (provider : List Char) : Except String (Option (List Char)) :=
  match create_sync_provider_auth_entry f provider with
  | .error e => .error e
  | .ok account =>
    match (if f.getFails account then none else kr.get account) with
    | none => .ok none
    | some password =>
      let normalized := rustTrim password
      if normalized.isEmpty then .ok none else .ok (some normalized)

/-- `set_sync_provider_secure_auth`, desktop branch; returns the command
result together with the keychain state after the call. -/
def set_sync_provider_secure_auth_native (kr : Keyring) (f : KeyringFaults)
    (provider auth : List Char) : Except String Unit × Keyring :=
  let normalized_auth := rustTrim auth
  if normalized_auth.isEmpty then (.error ("auth payload is required"), kr)
  else
    match create_sync_provider_auth_entry f provider with
    | .error e => (.error e, kr)
    | .ok account =>
      if f.setFails account then (.error ("store secure auth failed"), kr)
      else (.ok (), kr.set account normalized_auth)

/-- `delete_sync_provider_secure_auth`, desktop branch: the result of
`delete_credential` is discarded (`let _ = ...`), so a delete failure is
swallowed and leaves the keychain unchanged. -/
def delete_sync_provider_secure_auth_native (kr : Keyring) (f : KeyringFaults)
    (provider : List Char) : Except String Unit × Keyring :=
  match create_sync_provider_auth_entry f provider with
  | .error e => (.error e, kr)
  | .ok account =>
    if f.deleteFails account then (.ok (), kr)
    else (.ok (), kr.del account)

/-- Android secure store state: provider (already normalized by the
caller, as in the source) mapped to the stored auth value. -/
structure AndroidStore where
  entries : List (List Char × List Char)
deriving DecidableEq

def AndroidStore.get (st : AndroidStore) (provider : List Char) : Option (List Char) :=
  (st.entries.find? (fun e => e.1 = provider)).map (fun e => e.2)

def AndroidStore.set (st : AndroidStore) (provider auth : List Char) : AndroidStore :=
  ⟨(provider, auth) :: st.entries⟩

def AndroidStore.del (st : AndroidStore) (provider : List Char) : AndroidStore :=
  ⟨st.entries.filter (fun e => !decide (e.1 = provider))⟩

theorem AndroidStore.get_set_stored (st : AndroidStore) (provider auth : List Char) :
    (st.set provider auth).get provider = some auth := by
  simp [AndroidStore.set, AndroidStore.get, List.find?]

/-- Fault oracle for the JNI call chain of the android backend.  The
three failure points inside `find_android_secure_store_class` (class-name
string creation, `getAppClass` invocation, object conversion) are
collapsed into one flag, since the code treats them identically. -/
structure AndroidFaults where
  findClassFails : Bool := false
  newProviderStringFails : Bool := false
  newAuthStringFails : Bool := false
  getCallFails : Bool := false
  getPayloadFails : Bool := false
  nullCheckFails : Bool := false
  decodeFails : Bool := false
  setCallFails : Bool := false
  setStatusFails : Bool := false
  rejectWrite : Bool := false
  deleteCallFails : Bool := false
  deleteStatusFails : Bool := false
  rejectDelete : Bool := false
deriving DecidableEq

/-- `read_auth_from_android_secure_store` from `lib.rs`: every JNI
failure is an `Err`; a null payload is `Ok(None)`; a non-null payload is
trimmed and an empty result becomes `Ok(None)`. -/
def read_auth_from_android_secure_store (st : AndroidStore) (f : AndroidFaults)
    (provider : List Char) : Except String (Option (List Char)) :=
  if f.findClassFails then .error ("resolve secure store class failed")
  else if f.newProviderStringFails then .error ("create provider string failed")
  else if f.getCallFails then .error ("android secure store get failed")
  else if f.getPayloadFails then .error ("android secure store get payload failed")
  else if f.nullCheckFails then .error ("android secure store null check failed")
  else
    match st.get provider with
    | none => .ok none
    | some auth_text =>
      if f.decodeFails then .error ("android secure store decode failed")
      else
        let normalized := rustTrim auth_text
        if normalized.isEmpty then .ok none else .ok (some normalized)

/-- `write_auth_to_android_secure_store` from `lib.rs`. -/
def write_auth_to_android_secure_store (st : AndroidStore) (f : AndroidFaults)
    (provider auth : List Char) : Except String AndroidStore :=
  if f.findClassFails then .error ("resolve secure store class failed")
  else if f.newProviderStringFails then .error ("create provider string failed")
  else if f.newAuthStringFails then .error ("create auth string failed")
  else if f.setCallFails then .error ("android secure store set failed")
  else if f.setStatusFails then .error ("android secure store set status failed")
  else if f.rejectWrite then .error ("android secure store rejected auth write")
  else .ok (st.set provider auth)

/-- `delete_auth_from_android_secure_store` from `lib.rs`. -/
def delete_auth_from_android_secure_store (st : AndroidStore) (f : AndroidFaults)
    (provider : List Char) : Except String AndroidStore :=
  if f.findClassFails then .error ("resolve secure store class failed")
  else if f.newProviderStringFails then .error ("create provider string failed")
  else if f.deleteCallFails then .error ("android secure store delete failed")
  else if f.deleteStatusFails then .error ("android secure store delete status failed")
  else if f.rejectDelete then .error ("android secure store rejected delete")
  else .ok (st.del provider)

/-- Outcome of the cross-runtime bridge for one call: the submission may
fail to schedule, the 5000 ms wait may time out, or the unit of work runs
and its own result is delivered. -/
inductive BridgeOutcome where
  | scheduleFails
  | timeout
  | deliver
deriving DecidableEq

/-- `run_android_secure_store_call` from `lib.rs`. -/
def run_android_secure_store_call {α : Type} (bridge : BridgeOutcome)
    (work : Except String α) : Except String α :=
  match bridge with
  | .scheduleFails => .error ("schedule android secure store call failed")
  | .timeout => .error ("android secure store call timed out")
  | .deliver => work

/-- `get_sync_provider_secure_auth`, android branch. -/
def get_sync_provider_secure_auth_android (bridge : BridgeOutcome)
    (st : AndroidStore) (f : AndroidFaults) (provider : List Char) :
    Except String (Option (List Char)) :=
  match normalize_sync_provider_identifier provider with
  | .error e => .error e
  | .ok normalized_provider =>
    run_android_secure_store_call bridge
      (read_auth_from_android_secure_store st f normalized_provider)

/-- `set_sync_provider_secure_auth`, android branch; returns the command
result together with the store state after the call. -/
def set_sync_provider_secure_auth_android (bridge : BridgeOutcome)
    (st : AndroidStore) (f : AndroidFaults) (provider auth : List Char) :
    Except String Unit × AndroidStore :=
  match normalize_sync_provider_identifier provider with
  | .error e => (.error e, st)
  | .ok normalized_provider =>
    let normalized_auth := rustTrim auth
    if normalized_auth.isEmpty then (.error ("auth payload is required"), st)
    else
      match run_android_secure_store_call bridge
          (write_auth_to_android_secure_store st f normalized_provider
            normalized_auth) with
      | .error e => (.error e, st)
      | .ok st1 => (.ok (), st1)

/-- `delete_sync_provider_secure_auth`, android branch. -/
def delete_sync_provider_secure_auth_android (bridge : BridgeOutcome)
    (st : AndroidStore) (f : AndroidFaults) (provider : List Char) :
    Except String Unit × AndroidStore :=
  match normalize_sync_provider_identifier provider with
  | .error e => (.error e, st)
  | .ok normalized_provider =>
    match run_android_secure_store_call bridge
        (delete_auth_from_android_secure_store st f normalized_provider) with
    | .error e => (.error e, st)
    | .ok st1 => (.ok (), st1)

/-- `get_sync_provider_secure_auth`, fallback branch for platforms with
neither a keychain nor a bridge. -/
def get_sync_provider_secure_auth_unsupported (provider : List Char) :
    Except String (Option (List Char)) :=
  .ok none

/-- `set_sync_provider_secure_auth`, fallback branch: the arguments are
discarded and the call succeeds as a no-op. -/
def set_sync_provider_secure_auth_unsupported (provider auth : List Char) :
    Except String Unit :=
  .ok ()

/-- `delete_sync_provider_secure_auth`, fallback branch. -/
def delete_sync_provider_secure_auth_unsupported (provider : List Char) :
    Except String Unit :=
  .ok ()

/-! Self-test. -/

def SYNC_PROVIDER_AUTH_SELF_TEST_PAYLOAD : List Char :=
  str ("solostack-secure-store-self-test")

/-- `SyncProviderSecureStoreSelfTestResult` from `lib.rs`. -/
structure SyncProviderSecureStoreSelfTestResult where
  runtime : String
  backend : String
  available : Bool
  write_ok : Bool
  read_ok : Bool
  delete_ok : Bool
  roundtrip_ok : Bool
  detail : Option String
deriving DecidableEq

/-- `build_secure_store_self_test_result` from `lib.rs`:
`roundtrip_ok` is computed as the conjunction of the four flags. -/
def build_secure_store_self_test_result (backend : String)
    (available write_ok read_ok delete_ok : Bool) (detail : Option String) :
    SyncProviderSecureStoreSelfTestResult :=
  { runtime := "tauri"
    backend := backend
    available := available
    write_ok := write_ok
    read_ok := read_ok
    delete_ok := delete_ok
    roundtrip_ok := available && write_ok && read_ok && delete_ok
    detail := detail }

/-- Result of `entry.get_password()` in the self-test: a password, or an
error (which covers both a missing entry and a hard failure). -/
inductive KeyringReadOutcome where
  | ok (password : List Char)
  | err
deriving DecidableEq

/-- Oracle for the four keyring calls of one native self-test run. -/
structure NativeSelfTestEnv where
  entryNewFails : Bool := false
  writeFails : Bool := false
  readResult : KeyringReadOutcome := .err
  deleteFails : Bool := false
deriving DecidableEq

/-- `run_native_secure_store_self_test` from `lib.rs`, with the mutable
`detail` accumulator threaded explicitly: write failure records its
message; the read step runs only after a successful write and records a
mismatch or read failure; the delete step always runs and records its
failure only when `detail` is still empty. -/
def run_native_secure_store_self_test (env : NativeSelfTestEnv) :
    SyncProviderSecureStoreSelfTestResult :=
  if env.entryNewFails then
    build_secure_store_self_test_result ("keyring") false false false false
      (some ("create keyring entry failed"))
  else
    let wr : Bool × Option String :=
      if env.writeFails then (false, some ("write failed")) else (true, none)
    let rd : Bool × Option String :=
      if wr.1 then
        match env.readResult with
        | .ok password =>
          if password = SYNC_PROVIDER_AUTH_SELF_TEST_PAYLOAD then (true, wr.2)
          else (false, some ("read payload mismatch"))
        | .err => (false, some ("read failed"))
      else (false, wr.2)
    let dl : Bool × Option String :=
      if env.deleteFails then
        (false, if rd.2 = none then some ("delete failed") else rd.2)
      else (true, rd.2)
    build_secure_store_self_test_result ("keyring") true wr.1 rd.1 dl.1 dl.2

/-- Normalization and entry creation succeed together: used by several
credential theorems. -/
theorem create_entry_ok {f : KeyringFaults} {provider np : List Char}
    (hnp : normalize_sync_provider_identifier provider = .ok np)
    (hce : f.createEntryFails (syncProviderAccount np) = false) :
    create_sync_provider_auth_entry f provider = .ok (syncProviderAccount np) := by
  unfold create_sync_provider_auth_entry
  rw [hnp]
  dsimp only
  rw [if_neg (by simp [hce])]

/-- C5: `roundtrip_ok` is true iff `available`, `write_ok`, `read_ok`
and `delete_ok` are all true; and when the read step of the native
self-test returns a payload different from the written one, `read_ok`
is false and `detail` reports the mismatch, whatever the delete step
does. -/
theorem claim_C5_self_test_roundtrip_and_mismatch :
    (∀ (backend : String) (available write_ok read_ok delete_ok : Bool)
        (detail : Option String),
      ((build_secure_store_self_test_result backend available write_ok read_ok
          delete_ok detail).roundtrip_ok = true ↔
        (available = true ∧ write_ok = true ∧ read_ok = true ∧
          delete_ok = true))) ∧
    (∀ (env : NativeSelfTestEnv) (password : List Char),
      env.entryNewFails = false → env.writeFails = false →
      env.readResult = .ok password →
      password ≠ SYNC_PROVIDER_AUTH_SELF_TEST_PAYLOAD →
      (run_native_secure_store_self_test env).read_ok = false ∧
        (run_native_secure_store_self_test env).detail =
          some ("read payload mismatch")) := by
  constructor
  · intro backend available write_ok read_ok delete_ok detail
    simp [build_secure_store_self_test_result, Bool.and_eq_true, and_assoc]
  · intro env password h1 h2 h3 h4
    unfold run_native_secure_store_self_test
    simp only [h1, Bool.false_eq_true, if_false, h2, h3]
    rw [if_neg h4]
    by_cases hdl : env.deleteFails = true
    · simp [hdl, build_secure_store_self_test_result]
    · simp only [Bool.not_eq_true] at hdl
      simp [hdl, build_secure_store_self_test_result]

/-- C6: the native delete swallows a failure of the underlying
`delete_credential` call and returns ok; the bridged delete surfaces the
failure of the underlying android delete call as an error string. -/
theorem claim_C6_delete_asymmetry
    (kr : Keyring) (f : KeyringFaults) (st : AndroidStore) (af : AndroidFaults)
    (provider np : List Char)
    (hnp : normalize_sync_provider_identifier provider = .ok np)
    (hce : f.createEntryFails (syncProviderAccount np) = false) :
    ((delete_sync_provider_secure_auth_native kr f provider).1 = .ok ()) ∧
    (∀ e, delete_auth_from_android_secure_store st af np = .error e →
      (delete_sync_provider_secure_auth_android .deliver st af provider).1 =
        .error e) := by
  constructor
  · unfold delete_sync_provider_secure_auth_native
    rw [create_entry_ok hnp hce]
    dsimp only
    by_cases hdf : f.deleteFails (syncProviderAccount np) = true
    · simp [hdf]
    · simp only [Bool.not_eq_true] at hdf
      simp [hdf]
  · intro e he
    unfold delete_sync_provider_secure_auth_android
    rw [hnp]
    dsimp only [run_android_secure_store_call]
    rw [he]

/-- C7 counterexample: on the unsupported backend, `set` with a
whitespace-only auth value returns ok as a no-op instead of the
validation error the claim requires of every backend variant. -/
theorem claim_C7_counterexample :
    rustTrim (str ("   ")) = [] ∧
    set_sync_provider_secure_auth_unsupported (str ("github")) (str ("   ")) =
      .ok () :=
  ⟨by decide, rfl⟩

/-- C7 amended: on the native and bridged backends an empty or
whitespace-only auth value yields a validation error and no backend
state change, for every fault pattern and bridge outcome; the
unsupported backend instead succeeds as a no-op without validating. -/
theorem claim_C7_empty_auth_validation
    (kr : Keyring) (f : KeyringFaults) (st : AndroidStore) (af : AndroidFaults)
    (bridge : BridgeOutcome) (provider auth : List Char)
    (hauth : rustTrim auth = []) :
    (set_sync_provider_secure_auth_native kr f provider auth =
      (.error ("auth payload is required"), kr)) ∧
    ((set_sync_provider_secure_auth_android bridge st af provider auth).2 = st ∧
      ((set_sync_provider_secure_auth_android bridge st af provider auth).1 =
          .error ("provider is required") ∨
        (set_sync_provider_secure_auth_android bridge st af provider auth).1 =
          .error ("auth payload is required"))) ∧
    (set_sync_provider_secure_auth_unsupported provider auth = .ok ()) := by
  refine ⟨?_, ?_, rfl⟩
  · unfold set_sync_provider_secure_auth_native
    simp [hauth]
  · unfold set_sync_provider_secure_auth_android
      normalize_sync_provider_identifier
    by_cases hp : (rustTrim provider).isEmpty = true
    · simp [hp]
    · simp only [Bool.not_eq_true] at hp
      simp [hp, hauth]

/-- C4 counterexample: on the bridged backend a failing read call is
surfaced to the caller as an error string, not mapped to an absent
result. -/
theorem claim_C4_counterexample :
    get_sync_provider_secure_auth_android .deliver ⟨[]⟩
      { getCallFails := true } (str ("github")) =
      .error ("android secure store get failed") := by
  rfl

/-- C4 amended: the native backend maps both a missing credential and a
read failure to an absent result and never surfaces a read failure; the
unsupported backend always returns absent; the bridged backend returns
absent for a missing (null) credential but surfaces a read-call failure
as an error. -/
theorem claim_C4_get_absent_semantics
    (kr : Keyring) (f : KeyringFaults) (st : AndroidStore) (af : AndroidFaults)
    (provider np : List Char)
    (hnp : normalize_sync_provider_identifier provider = .ok np)
    (hce : f.createEntryFails (syncProviderAccount np) = false) :
    ((f.getFails (syncProviderAccount np) = true ∨
        kr.get (syncProviderAccount np) = none) →
      get_sync_provider_secure_auth_native kr f provider = .ok none) ∧
    (get_sync_provider_secure_auth_unsupported provider = .ok none) ∧
    (af.findClassFails = false → af.newProviderStringFails = false →
      af.getCallFails = true →
      get_sync_provider_secure_auth_android .deliver st af provider =
        .error ("android secure store get failed")) ∧
    (af = {} → st.get np = none →
      get_sync_provider_secure_auth_android .deliver st af provider =
        .ok none) := by
  refine ⟨?_, rfl, ?_, ?_⟩
  · intro hread
    unfold get_sync_provider_secure_auth_native
    rw [create_entry_ok hnp hce]
    dsimp only
    rcases hread with h | h
    · rw [if_pos h]
    · by_cases hg : f.getFails (syncProviderAccount np) = true
      · rw [if_pos hg]
      · simp only [Bool.not_eq_true] at hg
        simp only [hg, Bool.false_eq_true, if_false]
        rw [h]
  · intro h1 h2 h3
    unfold get_sync_provider_secure_auth_android
    rw [hnp]
    dsimp only [run_android_secure_store_call]
    unfold read_auth_from_android_secure_store
    simp [h1, h2, h3]
  · intro haf h
    subst haf
    unfold get_sync_provider_secure_auth_android
    rw [hnp]
    dsimp only [run_android_secure_store_call]
    unfold read_auth_from_android_secure_store
    rw [h]
    rfl

/-- C9: on the native and bridged backends, `set` stores the trimmed
auth value and `get` trims before returning (absent when the trim is
empty); hence a successful set followed by a successful get yields
`trim(auth)`, and a present `get` result is never empty or
whitespace-padded on either backend. -/
theorem claim_C9_trim_roundtrip
    (kr : Keyring) (f : KeyringFaults) (st : AndroidStore)
    (provider auth np : List Char)
    (hnp : normalize_sync_provider_identifier provider = .ok np)
    (hce : f.createEntryFails (syncProviderAccount np) = false)
    (hset : f.setFails (syncProviderAccount np) = false)
    (hget : f.getFails (syncProviderAccount np) = false)
    (hauth : rustTrim auth ≠ []) :
    (set_sync_provider_secure_auth_native kr f provider auth =
      (.ok (), kr.set (syncProviderAccount np) (rustTrim auth))) ∧
    (get_sync_provider_secure_auth_native
        (kr.set (syncProviderAccount np) (rustTrim auth)) f provider =
      .ok (some (rustTrim auth))) ∧
    (set_sync_provider_secure_auth_android .deliver st {} provider auth =
      (.ok (), st.set np (rustTrim auth))) ∧
    (get_sync_provider_secure_auth_android .deliver (st.set np (rustTrim auth))
        {} provider =
      .ok (some (rustTrim auth))) ∧
    (∀ (kr1 : Keyring) (f1 : KeyringFaults) (v : List Char),
      get_sync_provider_secure_auth_native kr1 f1 provider = .ok (some v) →
      rustTrim v = v ∧ v ≠ []) ∧
    (∀ (bridge : BridgeOutcome) (st1 : AndroidStore) (af : AndroidFaults)
        (v : List Char),
      get_sync_provider_secure_auth_android bridge st1 af provider =
        .ok (some v) →
      rustTrim v = v ∧ v ≠ []) := by
  have hempty : (rustTrim auth).isEmpty = false := by
    rw [List.isEmpty_eq_false]
    exact hauth
  refine ⟨?_, ?_, ?_, ?_, ?_, ?_⟩
  · unfold set_sync_provider_secure_auth_native
    rw [create_entry_ok hnp hce]
    simp only [hempty, Bool.false_eq_true, if_false]
    simp only [hset, Bool.false_eq_true, if_false]
  · unfold get_sync_provider_secure_auth_native
    rw [create_entry_ok hnp hce]
    dsimp only
    simp only [hget, Bool.false_eq_true, if_false]
    rw [Keyring.get_set_found]
    simp only [rustTrim_idempotent, hempty, Bool.false_eq_true, if_false]
  · unfold set_sync_provider_secure_auth_android
    rw [hnp]
    simp only [hempty, Bool.false_eq_true, if_false]
    dsimp only [run_android_secure_store_call]
    unfold write_auth_to_android_secure_store
    simp
  · unfold get_sync_provider_secure_auth_android
    rw [hnp]
    dsimp only [run_android_secure_store_call]
    unfold read_auth_from_android_secure_store
    simp only []
    rw [AndroidStore.get_set_stored]
    simp only [rustTrim_idempotent, hempty, Bool.false_eq_true, if_false]
  · intro kr1 f1 v h
    unfold get_sync_provider_secure_auth_native at h
    cases hent : create_sync_provider_auth_entry f1 provider with
    | error e => rw [hent] at h; simp at h
    | ok account =>
      rw [hent] at h
      dsimp only at h
      cases hlook : (if f1.getFails account then none else kr1.get account) with
      | none => rw [hlook] at h; simp at h
      | some password =>
        rw [hlook] at h
        dsimp only at h
        by_cases hemp : (rustTrim password).isEmpty = true
        · rw [if_pos hemp] at h
          simp at h
        · simp only [Bool.not_eq_true] at hemp
          rw [if_neg (by simp [hemp])] at h
          have hv : rustTrim password = v := by simpa using h
          refine ⟨?_, ?_⟩
          · rw [← hv, rustTrim_idempotent]
          · rw [← hv]
            exact List.isEmpty_eq_false.mp hemp
  · intro bridge st1 af v h
    unfold get_sync_provider_secure_auth_android at h
    rw [hnp] at h
    cases bridge with
    | scheduleFails => simp [run_android_secure_store_call] at h
    | timeout => simp [run_android_secure_store_call] at h
    | deliver =>
      dsimp only [run_android_secure_store_call] at h
      unfold read_auth_from_android_secure_store at h
      by_cases h1 : af.findClassFails = true
      · simp [h1] at h
      · simp only [Bool.not_eq_true] at h1
        simp only [h1, Bool.false_eq_true, if_false] at h
        by_cases h2 : af.newProviderStringFails = true
        · simp [h2] at h
        · simp only [Bool.not_eq_true] at h2
          simp only [h2, Bool.false_eq_true, if_false] at h
          by_cases h3 : af.getCallFails = true
          · simp [h3] at h
          · simp only [Bool.not_eq_true] at h3
            simp only [h3, Bool.false_eq_true, if_false] at h
            by_cases h4 : af.getPayloadFails = true
            · simp [h4] at h
            · simp only [Bool.not_eq_true] at h4
              simp only [h4, Bool.false_eq_true, if_false] at h
              by_cases h5 : af.nullCheckFails = true
              · simp [h5] at h
              · simp only [Bool.not_eq_true] at h5
                simp only [h5, Bool.false_eq_true, if_false] at h
                cases hlook : st1.get np with
                | none => rw [hlook] at h; simp at h
                | some auth_text =>
                  rw [hlook] at h
                  dsimp only at h
                  by_cases h6 : af.decodeFails = true
                  · simp [h6] at h
                  · simp only [Bool.not_eq_true] at h6
                    simp only [h6, Bool.false_eq_true, if_false] at h
                    by_cases hemp : (rustTrim auth_text).isEmpty = true
                    · rw [if_pos hemp] at h
                      simp at h
                    · simp only [Bool.not_eq_true] at hemp
                      rw [if_neg (by simp [hemp])] at h
                      have hv : rustTrim auth_text = v := by simpa using h
                      refine ⟨?_, ?_⟩
                      · rw [← hv, rustTrim_idempotent]
                      · rw [← hv]
                        exact List.isEmpty_eq_false.mp hemp

/-- C8: the legacy-directory derivation returns the input with the first
occurrence of the current identifier textually replaced when the path
contains the current identifier; otherwise the parent joined with the
legacy identifier when the final segment equals the current identifier
exactly; otherwise nothing. -/
theorem claim_C8_derive_legacy_dir_cases (p : Path) :
    (containsSub p CURRENT_BUNDLE_IDENTIFIER = true →
      derive_legacy_app_data_dir p =
        some (replacen1 p CURRENT_BUNDLE_IDENTIFIER LEGACY_BUNDLE_IDENTIFIER)) ∧
    (containsSub p CURRENT_BUNDLE_IDENTIFIER = false →
      pathFileName p = some CURRENT_BUNDLE_IDENTIFIER →
      ∃ parent, pathParent p = some parent ∧
        derive_legacy_app_data_dir p =
          some (pathJoin parent LEGACY_BUNDLE_IDENTIFIER)) ∧
    (containsSub p CURRENT_BUNDLE_IDENTIFIER = false →
      pathFileName p ≠ some CURRENT_BUNDLE_IDENTIFIER →
      derive_legacy_app_data_dir p = none) := by
  refine ⟨?_, ?_, ?_⟩
  · intro h
    unfold derive_legacy_app_data_dir
    rw [if_pos h]
  · intro h hf
    have hpar : pathParent p =
        some (joinSegments (isAbsolutePath p) (rustSegments p).dropLast) := by
      unfold pathParent
      rw [hf]
    refine ⟨_, hpar, ?_⟩
    unfold derive_legacy_app_data_dir
    rw [if_neg (by simp [h]), hf]
    dsimp only
    rw [if_pos rfl, hpar]
  · intro h hf
    unfold derive_legacy_app_data_dir
    rw [if_neg (by simp [h])]
    cases hpf : pathFileName p with
    | none => rfl
    | some fn =>
      dsimp only
      rw [if_neg (fun he => hf (by rw [hpf, he]))]

/-! Concrete fixtures for the witness theorems. -/

def exampleNewDir : Path := str ("/data/com.solutionsstudio.solostack")

def exampleLegacyDir : Path := str ("/data/com.antigravity.solostack")

def exampleEnv : MigrationEnv := { appDataDir := some exampleNewDir }

def exampleLegacyDb : Path := pathJoin exampleLegacyDir DATABASE_FILENAME

/-- A filesystem holding only the legacy database: the first-run state. -/
def exampleFS : FS := ⟨[(exampleLegacyDb, .bytes 5)]⟩

/-- A filesystem holding the legacy database and the marker: the state
after a completed migration (destination database deliberately absent to
exercise the marker disjunct of the gate). -/
def exampleFSMigrated : FS :=
  ⟨[(pathJoin exampleNewDir STARTUP_MIGRATION_MARKER_FILENAME, .bytes 1),
    (exampleLegacyDb, .bytes 5)]⟩

/-- Witness for C1 at a concrete first-run configuration. -/
theorem claim_C1_witness :
    (run_startup_legacy_db_migration exampleEnv exampleFS).1.migration_attempted =
      true ∧
    (run_startup_legacy_db_migration exampleEnv exampleFS).1.migration_completed =
      true ∧
    (run_startup_legacy_db_migration exampleEnv exampleFS).1.marker_present =
      true ∧
    (run_startup_legacy_db_migration exampleEnv exampleFS).1.migration_error =
      none ∧
    (run_startup_legacy_db_migration exampleEnv exampleFS).2.get
        (pathJoin exampleNewDir STARTUP_MIGRATION_MARKER_FILENAME) =
      some (.markerText
        ⟨1, pathJoin exampleLegacyDir DATABASE_FILENAME,
          pathJoin exampleNewDir DATABASE_FILENAME⟩) :=
  claim_C1_first_run_success exampleEnv exampleFS (d := exampleNewDir)
    (L := exampleLegacyDir) rfl rfl (by decide) rfl (by decide) (by decide)
    (by decide)

/-- Witness for C2 at a concrete already-migrated configuration. -/
theorem claim_C2_witness :
    (run_startup_legacy_db_migration exampleEnv
        exampleFSMigrated).1.migration_completed = true ∧
    (run_startup_legacy_db_migration exampleEnv
        exampleFSMigrated).1.migration_attempted = false ∧
    (run_startup_legacy_db_migration exampleEnv exampleFSMigrated).2 =
      exampleFSMigrated :=
  claim_C2_idempotency_gate exampleEnv exampleFSMigrated (d := exampleNewDir)
    (L := exampleLegacyDir) rfl rfl (by decide) (by decide) (Or.inl (by decide))

/-- Witness for C3 at a concrete run that attempts the migration. -/
theorem claim_C3_witness :
    (run_startup_legacy_db_migration exampleEnv
        exampleFS).1.legacy_path_detected = true ∧
    ∃ d, exampleEnv.appDataDir = some d ∧
      exampleFS.pathExists
          (pathJoin d STARTUP_MIGRATION_MARKER_FILENAME) = false ∧
      exampleFS.pathExists (pathJoin d DATABASE_FILENAME) = false :=
  (claim_C3_report_invariant exampleEnv exampleFS).2 (by decide)

/-- Witness for C4 (amended) on the native backend with an empty
keychain. -/
theorem claim_C4_witness :
    get_sync_provider_secure_auth_native ⟨[]⟩ noKeyringFaults (str ("github")) =
      .ok none :=
  (claim_C4_get_absent_semantics ⟨[]⟩ noKeyringFaults ⟨[]⟩ {} (str ("github"))
      (str ("github")) rfl rfl).1 (Or.inr rfl)

/-- Witness for C5: a concrete self-test whose read step returns the
wrong payload. -/
theorem claim_C5_witness :
    (run_native_secure_store_self_test
        { readResult := .ok (str ("wrong-payload")) }).read_ok = false ∧
    (run_native_secure_store_self_test
        { readResult := .ok (str ("wrong-payload")) }).detail =
      some ("read payload mismatch") :=
  claim_C5_self_test_roundtrip_and_mismatch.2
    { readResult := .ok (str ("wrong-payload")) } (str ("wrong-payload"))
    rfl rfl rfl (by decide)

/-- Witness for C6: a concrete bridged delete whose store rejects the
delete. -/
theorem claim_C6_witness :
    (delete_sync_provider_secure_auth_android .deliver ⟨[]⟩
        { rejectDelete := true } (str ("github"))).1 =
      .error ("android secure store rejected delete") :=
  (claim_C6_delete_asymmetry ⟨[]⟩ noKeyringFaults ⟨[]⟩ { rejectDelete := true }
      (str ("github")) (str ("github")) rfl rfl).2 _ rfl

/-- Witness for C7 (amended): a whitespace-only auth value on the native
backend. -/
theorem claim_C7_witness :
    set_sync_provider_secure_auth_native ⟨[]⟩ noKeyringFaults (str ("github"))
        (str ("   ")) =
      (.error ("auth payload is required"), ⟨[]⟩) :=
  (claim_C7_empty_auth_validation ⟨[]⟩ noKeyringFaults ⟨[]⟩ {} .deliver
      (str ("github")) (str ("   ")) (by decide)).1

/-- Witness for C8: the substitution branch at a concrete directory. -/
theorem claim_C8_witness :
    derive_legacy_app_data_dir exampleNewDir =
      some (replacen1 exampleNewDir CURRENT_BUNDLE_IDENTIFIER
        LEGACY_BUNDLE_IDENTIFIER) :=
  (claim_C8_derive_legacy_dir_cases exampleNewDir).1 (by decide)

/-- Witness for C9: a concrete native set stores the trimmed auth. -/
theorem claim_C9_witness :
    set_sync_provider_secure_auth_native ⟨[]⟩ noKeyringFaults (str ("github"))
        (str ("  token  ")) =
      (.ok (), Keyring.set ⟨[]⟩ (syncProviderAccount (str ("github")))
        (rustTrim (str ("  token  ")))) :=
  (claim_C9_trim_roundtrip ⟨[]⟩ noKeyringFaults ⟨[]⟩ (str ("github"))
      (str ("  token  ")) (str ("github")) rfl rfl rfl rfl (by decide)).1

/-- Witness for C10 at a concrete run. -/
theorem claim_C10_witness :
    ((run_startup_legacy_db_migration exampleEnv exampleFS).2.get
        (pathJoin exampleLegacyDir DATABASE_FILENAME) =
      exampleFS.get (pathJoin exampleLegacyDir DATABASE_FILENAME)) ∧
    ((run_startup_legacy_db_migration exampleEnv exampleFS).2.get
        (pathJoin exampleLegacyDir DATABASE_FILENAME ++ str ("-wal")) =
      exampleFS.get (pathJoin exampleLegacyDir DATABASE_FILENAME ++ str ("-wal"))) ∧
    ((run_startup_legacy_db_migration exampleEnv exampleFS).2.get
        (pathJoin exampleLegacyDir DATABASE_FILENAME ++ str ("-shm")) =
      exampleFS.get (pathJoin exampleLegacyDir DATABASE_FILENAME ++ str ("-shm"))) :=
  claim_C10_migration_preserves_legacy_files exampleEnv exampleFS
    (d := exampleNewDir) (L := exampleLegacyDir) rfl (by decide)

end SoloStack
